import Mathlib

/-!
# Verification of gin-auth (G-Node authentication service)

A shallow embedding of the configuration loader (`conf/conf.go`), the e-mail
utility (`util/email.go`) and — modelled from the specification, since the
handler and data-layer sources are not part of the analysed tree — the
token-validation and account endpoints exercised by `web/account_test.go`.
-/

namespace GinAuth

/-! ## Configuration (`conf/conf.go`)

Durations are Go `time.Duration` values: signed 64-bit counts of
nanoseconds.  The yaml integers of the server configuration are a number
of minutes; `time.Duration(x) * time.Minute` multiplies within int64, so
the embedding wraps the product into the signed 64-bit range. -/

/-- Signed 64-bit wrap-around, as Go multiplication of `time.Duration`. -/
def wrap64 (i : Int) : Int := (i + 2 ^ 63) % 2 ^ 64 - 2 ^ 63

/-- Go `time.Minute` in nanoseconds. -/
def timeMinute : Int := 60000000000

/-- `time.Duration(m) * time.Minute` for a Go int `m`. -/
def minutesToDuration (m : Int) : Int := wrap64 (m * timeMinute)

/-- `defaultSessionLifeTime` constant of `conf/conf.go` (minutes). -/
def defaultSessionLifeTime : Int := 2880

/-- `defaultTokenLifeTime` constant of `conf/conf.go` (minutes). -/
def defaultTokenLifeTime : Int := 1440

/-- `defaultGrantReqLifeTime` constant of `conf/conf.go` (minutes). -/
def defaultGrantReqLifeTime : Int := 15

/-- `defaultCleanerInterval` constant of `conf/conf.go` (minutes). -/
def defaultCleanerInterval : Int := 15

/-- The anonymous `config.Http` struct that `GetServerConfig` unmarshals
the yaml file into.  A field omitted from the yaml is left at its zero
value, so omission and an explicit zero are indistinguishable here. -/
structure HttpConfig where
  Host : String
  Port : Int
  BaseURL : String
  SessionLifeTime : Int
  TokenLifeTime : Int
  GrantReqLifeTime : Int
  CleanerInterval : Int
deriving DecidableEq, Repr

/-- `ServerConfig` struct of `conf/conf.go`; the four lifetimes are
`time.Duration` values in nanoseconds. -/
structure ServerConfig where
  Host : String
  Port : Int
  BaseURL : String
  SessionLifeTime : Int
  TokenLifeTime : Int
  GrantReqLifeTime : Int
  CleanerInterval : Int
deriving DecidableEq, Repr

/-- The `// set defaults` block of `GetServerConfig`: an empty `BaseURL`
is replaced by `http://Host:Port` (without the port when it is 80), and
each zero lifetime by its default constant. -/
def setDefaults (c : HttpConfig) : HttpConfig :=
  let c := if c.BaseURL = "" then
      if c.Port = 80 then { c with BaseURL := "http://" ++ c.Host }
      else { c with BaseURL := "http://" ++ c.Host ++ ":" ++ toString c.Port }
    else c
  let c := if c.SessionLifeTime = 0 then
      { c with SessionLifeTime := defaultSessionLifeTime } else c
  let c := if c.TokenLifeTime = 0 then
      { c with TokenLifeTime := defaultTokenLifeTime } else c
  let c := if c.GrantReqLifeTime = 0 then
      { c with GrantReqLifeTime := defaultGrantReqLifeTime } else c
  let c := if c.CleanerInterval = 0 then
      { c with CleanerInterval := defaultCleanerInterval } else c
  c

/-- The `serverConfig = &ServerConfig{...}` construction at the end of
`GetServerConfig`: lifetimes are converted from minutes to durations. -/
def buildServerConfig (c : HttpConfig) : ServerConfig :=
  let c := setDefaults c
  { Host := c.Host
    Port := c.Port
    BaseURL := c.BaseURL
    SessionLifeTime := minutesToDuration c.SessionLifeTime
    TokenLifeTime := minutesToDuration c.TokenLifeTime
    GrantReqLifeTime := minutesToDuration c.GrantReqLifeTime
    CleanerInterval := minutesToDuration c.CleanerInterval }

/-- `GetServerConfig` of `conf/conf.go`.  The process-wide singleton
`serverConfig` (guarded by `serverConfigLock`) is made explicit: the
first component of the result is the returned configuration, the second
the singleton after the call, the third whether the configuration file
was read and parsed during the call.  `file` stands for the parsed
content of `conf/server.yml`. -/
def GetServerConfig (serverConfig : Option ServerConfig) (file : HttpConfig) :
    ServerConfig × Option ServerConfig × Bool :=
  match serverConfig with
  | some c => (c, some c, false)
  | none =>
    let c := buildServerConfig file
    (c, some c, true)

/-- A sequence of calls to `GetServerConfig`, threading the singleton:
returns the list of (returned config, file-was-read) pairs and the final
singleton state. -/
def GetServerConfigCalls :
    Option ServerConfig → List HttpConfig → List (ServerConfig × Bool) × Option ServerConfig
  | s, [] => ([], s)
  | s, f :: fs =>
    let r := GetServerConfig s f
    let rest := GetServerConfigCalls r.2.1 fs
    ((r.1, r.2.2) :: rest.1, rest.2)

/-! ## E-mail utility (`util/email.go`)

`MakePlainEmailTemplate` renders a constant `text/template` over a struct
with four string fields.  The fragment of the template language the
constant uses — literal text and `\x7b\x7b .Field \x7d\x7d` actions — is
embedded: parsing splits the text at action delimiters (failing on an
unterminated or non-field action, the cases Go's parser would reject),
and execution substitutes the struct field named by each action (failing
on a field the struct does not have, as Go's `Execute` would). -/

/-- A parsed template piece: literal text or a field action. -/
inductive TPiece where
  | lit : String → TPiece
  | field : String → TPiece
deriving DecidableEq, Repr

/-- Trim the action body `" .Name "` to the field name `"Name"`; `none`
when the action is not a plain field access. -/
def parseFieldAction (act : List Char) : Option String :=
  match act.dropWhile (· = ' ') with
  | '.' :: rest =>
    let name := rest.takeWhile (· ≠ ' ')
    let after := (rest.dropWhile (· ≠ ' ')).dropWhile (· = ' ')
    if name ≠ [] ∧ after = [] then some (String.mk name) else none
  | _ => none

/-- Append a pending literal (if nonempty) to the accumulated pieces. -/
def pushLit (acc : List TPiece) (lit : List Char) : List TPiece :=
  if lit = [] then acc else acc ++ [TPiece.lit (String.mk lit)]

/-- Scanner mode: in literal text, in text having just read `\x7b`, in
an action body, or in an action body having just read `\x7d`. -/
inductive ScanMode where
  | text
  | textBrace
  | action
  | actionBrace
deriving DecidableEq, Repr

/-- Template scanner, one character at a time.  Literal text runs until
the two-character delimiter `\x7b\x7b`, an action body until
`\x7d\x7d`.  Errors on an unterminated action or a non-field action. -/
def scanTemplate : ScanMode → List Char → List Char → List TPiece → Option (List TPiece)
  | ScanMode.text, [], lit, acc => some (pushLit acc lit)
  | ScanMode.text, c :: rest, lit, acc =>
    if c = '{' then scanTemplate ScanMode.textBrace rest lit acc
    else scanTemplate ScanMode.text rest (lit ++ [c]) acc
  | ScanMode.textBrace, [], lit, acc => some (pushLit acc (lit ++ ['{']))
  | ScanMode.textBrace, c :: rest, lit, acc =>
    if c = '{' then scanTemplate ScanMode.action rest [] (pushLit acc lit)
    else scanTemplate ScanMode.text rest (lit ++ ['{', c]) acc
  | ScanMode.action, [], _, _ => none
  | ScanMode.action, c :: rest, act, acc =>
    if c = '}' then scanTemplate ScanMode.actionBrace rest act acc
    else scanTemplate ScanMode.action rest (act ++ [c]) acc
  | ScanMode.actionBrace, [], _, _ => none
  | ScanMode.actionBrace, c :: rest, act, acc =>
    if c = '}' then
      match parseFieldAction act with
      | some name => scanTemplate ScanMode.text rest [] (acc ++ [TPiece.field name])
      | none => none
    else scanTemplate ScanMode.action rest (act ++ ['}', c]) acc

/-- `template.Parse` on the supported fragment. -/
def parseTemplate (s : String) : Option (List TPiece) :=
  scanTemplate ScanMode.text s.toList [] []

/-- The anonymous content struct of `MakePlainEmailTemplate`. -/
structure EmailContent where
  From : String
  To : String
  Subject : String
  Body : String
deriving DecidableEq, Repr

/-- Struct field access during template execution. -/
def lookupField (c : EmailContent) : String → Option String
  | "From" => some c.From
  | "To" => some c.To
  | "Subject" => some c.Subject
  | "Body" => some c.Body
  | _ => none

/-- `template.Execute`: concatenate literals and substituted fields. -/
def execTemplate (c : EmailContent) : List TPiece → Option String
  | [] => some ""
  | TPiece.lit s :: ps => (execTemplate c ps).map (s ++ ·)
  | TPiece.field n :: ps =>
    match lookupField c n with
    | some v => (execTemplate c ps).map (v ++ ·)
    | none => none

/-- The `emailTemplate` constant of `MakePlainEmailTemplate`. -/
def emailTemplate : String :=
  "From: \x7b\x7b .From \x7d\x7d\nTo: \x7b\x7b .To \x7d\x7d\nSubject: \x7b\x7b .Subject \x7d\x7d\n\n\x7b\x7b .Body \x7d\x7d\n"

/-- `MakePlainEmailTemplate` of `util/email.go`.  The two `panic` calls
(`"Error parsing e-mail template"` on a parse error and
`"Error executing e-mail template"` on an execution error) are embedded
as the corresponding `Except.error`. -/
def MakePlainEmailTemplate (sender : String) (rcpts : List String)
    (subj : String) (messageBody : String) : Except String String :=
  let content : EmailContent :=
    { From := sender, To := String.intercalate ", " rcpts
      Subject := subj, Body := messageBody }
  match parseTemplate emailTemplate with
  | none => Except.error "Error parsing e-mail template"
  | some t =>
    match execTemplate content t with
    | none => Except.error "Error executing e-mail template"
    | some doc => Except.ok doc

/-- `EmailConfig` struct of `util/email.go`. -/
structure EmailConfig where
  Identity : String
  Dispatcher : String
  Password : String
  Host : String
  Port : String
deriving DecidableEq, Repr

/-- The value `smtp.PlainAuth(identity, username, password, host)`
constructs; its contents are what `Send` passes to the send function. -/
structure SmtpAuth where
  identity : String
  username : String
  password : String
  host : String
deriving DecidableEq, Repr

/-- `smtp.PlainAuth` of Go's `net/smtp`, as the record of its inputs. -/
def PlainAuth (identity username password host : String) : SmtpAuth :=
  { identity := identity, username := username, password := password, host := host }

/-- One invocation of an smtp send function, with all its arguments. -/
structure SendCall where
  addr : String
  auth : SmtpAuth
  sender : String
  recipients : List String
  message : List Nat
deriving DecidableEq, Repr

/-- `emailDispatcher.Send` of `util/email.go`.  The injected send
function (field `send` of `emailDispatcher`) is an effectful call; the
effect is made explicit by threading a state `σ` through it.  The body
is the Go body: build `addr`, build the auth value, and return what one
call of `send` returns. -/
def emailDispatcherSend {σ ε : Type}
    (conf : EmailConfig)
    (send : String → SmtpAuth → String → List String → List Nat → σ → Option ε × σ)
    (recipient : List String) (content : List Nat) (s : σ) : Option ε × σ :=
  let addr := conf.Host ++ ":" ++ conf.Port
  let auth := PlainAuth conf.Identity conf.Dispatcher conf.Password conf.Host
  send addr auth conf.Dispatcher recipient content s

/-- Wrap a pure send function so that the state records every call made
to it, in order. -/
def loggingSend {ε : Type}
    (f : String → SmtpAuth → String → List String → List Nat → Option ε) :
    String → SmtpAuth → String → List String → List Nat →
      List SendCall → Option ε × List SendCall :=
  fun addr auth sender recipients message log =>
    (f addr auth sender recipients message,
     log ++ [{ addr := addr, auth := auth, sender := sender
               recipients := recipients, message := message }])

/-! ## Token validation and account endpoints

The handler and data-layer sources (`web/account.go`, `data/…`) are not
part of the analysed tree — only their tests (`web/account_test.go`)
are.  The definitions below are therefore modelled from the
specification (§4.D Validate, §4.E admission, §6 endpoint table, §7
error kinds and status mapping) and checked for consistency with the
expectations of `web/account_test.go`. -/

/-- Modelled from the spec: the error kinds of §7 that the account
endpoints surface, with their fixed HTTP statuses. -/
inductive ErrKind where
  | Unauthenticated
  | Forbidden
  | NotFound
  | Malformed
  | Conflict
  | StoreUnavailable
deriving DecidableEq, Repr

/-- Modelled from the spec: "each kind maps to a fixed HTTP status
(`Unauthenticated`→401, `Forbidden`→401 per this system's convention,
`NotFound`→404, `Malformed`→400, `Conflict`→409,
`StoreUnavailable`→503)". -/
def errStatus : ErrKind → Nat
  | ErrKind.Unauthenticated => 401
  | ErrKind.Forbidden => 401
  | ErrKind.NotFound => 404
  | ErrKind.Malformed => 400
  | ErrKind.Conflict => 409
  | ErrKind.StoreUnavailable => 503

/-- Modelled from the spec (§9): the polymorphic principal, a tagged
variant — an account or a client (the anonymous case never reaches the
endpoints below). -/
inductive Principal where
  | account (uuid : String)
  | client (id : String)
deriving DecidableEq, Repr

/-- Modelled from the spec (§3 AccessToken): token string, owning
account id (absent for a client-credentials token), issuing client id,
granted scope set, creation timestamp and lifetime.  Times and
durations are integers (nanoseconds). -/
structure AccessToken where
  token : String
  accountUUID : Option String
  clientUUID : String
  scope : List String
  createdAt : Int
  lifetime : Int
deriving DecidableEq, Repr

/-- Modelled from the spec: §4.D Validate returns "(account id or
client id, stored scope)". -/
def tokenPrincipal (t : AccessToken) : Principal :=
  match t.accountUUID with
  | some uuid => Principal.account uuid
  | none => Principal.client t.clientUUID

/-- Modelled from the spec (§6 store contract `GetByToken`): look an
access token up by its token string. -/
def lookupToken (store : List AccessToken) (bearer : String) : Option AccessToken :=
  store.find? (fun t => t.token == bearer)

/-- Modelled from the spec (§6 store contract `DeleteByID`): remove the
token with the given token string. -/
def deleteToken (store : List AccessToken) (bearer : String) : List AccessToken :=
  store.filter (fun t => t.token != bearer)

/-- Modelled from the spec: §4.D "Validate(bearer) → (principal, scope)
| error.  Looks up the access token; if absent → `Unauthenticated`; if
present and `createdAt+lifetime ≤ now()` → delete it and return
`Unauthenticated`; otherwise return (account id or client id, stored
scope)."  The second component is the store after the call. -/
def Validate (store : List AccessToken) (bearer : String) (now : Int) :
    Except ErrKind (Principal × List String) × List AccessToken :=
  match lookupToken store bearer with
  | none => (Except.error ErrKind.Unauthenticated, store)
  | some t =>
    if t.createdAt + t.lifetime ≤ now then
      (Except.error ErrKind.Unauthenticated, deleteToken store bearer)
    else
      (Except.ok (tokenPrincipal t, t.scope), store)

/-- Modelled from the spec (§3 Account, restricted to the fields the
claims touch): stable UUID, unique login, hashed password. -/
structure Account where
  uuid : String
  login : String
  pwHash : String
deriving DecidableEq, Repr

/-- Modelled from the spec (§1): password hashing is an external
collaborator providing `Hash(plain)`; a concrete injective stand-in. -/
def hashPassword (plain : String) : String := "hashed:" ++ plain

/-- Modelled from the spec (§1): `Verify(hashed, plain)` of the
password-hashing collaborator. -/
def verifyPassword (hashed plain : String) : Bool := hashed == hashPassword plain

/-- Modelled from the spec (§6 store contract): look an account up by
its login. -/
def lookupAccount (accounts : List Account) (login : String) : Option Account :=
  accounts.find? (fun a => a.login == login)

/-- Modelled from the spec (§6 endpoint table): `GET
/api/accounts/:login` requires "self or `account-admin`". -/
def isSelfOrAdmin (p : Principal) (scope : List String) (acc : Account) : Bool :=
  (match p with
   | Principal.account uuid => uuid == acc.uuid
   | Principal.client _ => false)
  || scope.contains "account-admin"

/-- Modelled from the spec: handler of `GET /api/accounts/:login`.  An
absent or failed credential yields the error's status (§4.E, §7); an
unknown login yields `NotFound` (the tests check the lookup before the
permission, test "non existing account"); a principal that is neither
the account itself nor `account-admin`-scoped yields `Forbidden`.
Returns (status, response body, store after the call). -/
def getAccount (accounts : List Account) (store : List AccessToken) (now : Int)
    (authBearer : Option String) (login : String) :
    Nat × Option Account × List AccessToken :=
  match authBearer with
  | none => (errStatus ErrKind.Unauthenticated, none, store)
  | some bearer =>
    match Validate store bearer now with
    | (Except.error e, store2) => (errStatus e, none, store2)
    | (Except.ok (p, scope), store2) =>
      match lookupAccount accounts login with
      | none => (errStatus ErrKind.NotFound, none, store2)
      | some acc =>
        if isSelfOrAdmin p scope acc then (200, some acc, store2)
        else (errStatus ErrKind.Forbidden, none, store2)

/-- Modelled from the spec: handler of `GET /api/accounts`, which
requires scope `account-admin` (§6 table; §4.D RequireScope emits
`Forbidden` when the required scope is missing). -/
def listAccounts (accounts : List Account) (store : List AccessToken) (now : Int)
    (authBearer : Option String) :
    Nat × Option (List Account) × List AccessToken :=
  match authBearer with
  | none => (errStatus ErrKind.Unauthenticated, none, store)
  | some bearer =>
    match Validate store bearer now with
    | (Except.error e, store2) => (errStatus e, none, store2)
    | (Except.ok (_, scope), store2) =>
      if scope.contains "account-admin" then (200, some accounts, store2)
      else (errStatus ErrKind.Forbidden, none, store2)

/-- Modelled from the spec: handler of `PUT /api/accounts/:login/password`
(§6 table, auth "self"; §8 scenario 5: "correct old, matching new/repeat
of length ≥ 8 → 200").  A principal other than the account itself yields
`Forbidden` (tests expect status 401 there); a failed precondition
yields `Malformed` (tests expect status 400); on success the stored
password hash is replaced.  Returns (status, accounts after, store
after). -/
def updateAccountPassword (accounts : List Account) (store : List AccessToken)
    (now : Int) (authBearer : Option String) (login : String)
    (passwordOld passwordNew passwordNewRepeat : String) :
    Nat × List Account × List AccessToken :=
  match authBearer with
  | none => (errStatus ErrKind.Unauthenticated, accounts, store)
  | some bearer =>
    match Validate store bearer now with
    | (Except.error e, store2) => (errStatus e, accounts, store2)
    | (Except.ok (p, _), store2) =>
      match lookupAccount accounts login with
      | none => (errStatus ErrKind.NotFound, accounts, store2)
      | some acc =>
        if p = Principal.account acc.uuid then
          if verifyPassword acc.pwHash passwordOld = true
              ∧ passwordNew = passwordNewRepeat
              ∧ 8 ≤ passwordNew.length then
            (200,
             accounts.map (fun a =>
               if a.login == login then { a with pwHash := hashPassword passwordNew } else a),
             store2)
          else (errStatus ErrKind.Malformed, accounts, store2)
        else (errStatus ErrKind.Forbidden, accounts, store2)

/-! ## Theorems -/

/-- The constant e-mail template parses into the expected literal and
field pieces. -/
theorem parseTemplate_emailTemplate :
    parseTemplate emailTemplate =
      some [TPiece.lit "From: ", TPiece.field "From", TPiece.lit "\nTo: ", TPiece.field "To",
            TPiece.lit "\nSubject: ", TPiece.field "Subject", TPiece.lit "\n\n",
            TPiece.field "Body", TPiece.lit "\n"] := by
  decide

/-- Rendering the e-mail template succeeds and produces the header
block followed by the body. -/
theorem MakePlainEmailTemplate_eq (sender : String) (rcpts : List String)
    (subj body : String) :
    MakePlainEmailTemplate sender rcpts subj body =
      Except.ok ("From: " ++ sender ++ "\nTo: " ++ String.intercalate ", " rcpts ++
        "\nSubject: " ++ subj ++ "\n\n" ++ body ++ "\n") := by
  simp [MakePlainEmailTemplate, parseTemplate_emailTemplate, execTemplate, lookupField,
    String.append_assoc]

/-- C6: for every sender, recipient list, subject and body,
`MakePlainEmailTemplate` returns exactly the lines `From: <sender>`,
`To: <recipients joined by comma-space>`, `Subject: <subject>`, a blank
line, then the body followed by a newline. -/
theorem makePlainEmailTemplate_contents (sender : String) (rcpts : List String)
    (subj body : String) :
    MakePlainEmailTemplate sender rcpts subj body =
      Except.ok ("From: " ++ sender ++ "\nTo: " ++ String.intercalate ", " rcpts ++
        "\nSubject: " ++ subj ++ "\n\n" ++ body ++ "\n") :=
  MakePlainEmailTemplate_eq sender rcpts subj body

/-- C8: `MakePlainEmailTemplate` never panics — for all string inputs
both template parsing and template execution succeed, so neither of the
two panic branches (parse error, execution error) is reachable. -/
theorem makePlainEmailTemplate_no_panic (sender : String) (rcpts : List String)
    (subj body : String) :
    ∃ doc, MakePlainEmailTemplate sender rcpts subj body = Except.ok doc :=
  ⟨_, MakePlainEmailTemplate_eq sender rcpts subj body⟩

/-- C7: `emailDispatcher.Send` invokes the injected send function
exactly once, with server address `Host ++ ":" ++ Port`, the plain-auth
value, and sender `Dispatcher`, passing recipients and message through
unchanged, and returns exactly the send function's result. -/
theorem emailDispatcherSend_once {ε : Type} (conf : EmailConfig)
    (f : String → SmtpAuth → String → List String → List Nat → Option ε)
    (recipient : List String) (content : List Nat) (log : List SendCall) :
    emailDispatcherSend conf (loggingSend f) recipient content log =
      (f (conf.Host ++ ":" ++ conf.Port)
         (PlainAuth conf.Identity conf.Dispatcher conf.Password conf.Host)
         conf.Dispatcher recipient content,
       log ++ [{ addr := conf.Host ++ ":" ++ conf.Port
                 auth := PlainAuth conf.Identity conf.Dispatcher conf.Password conf.Host
                 sender := conf.Dispatcher
                 recipients := recipient
                 message := content }]) := by
  rfl

/-- C3: with the four lifetime integers omitted from (left zero in) the
yaml file, `GetServerConfig` returns durations of 2880, 1440, 15 and 15
minutes — 48 h, 24 h, 15 min and 15 min in nanoseconds. -/
theorem getServerConfig_default_lifetimes (host : String) (port : Int) (baseURL : String) :
    (GetServerConfig none ⟨host, port, baseURL, 0, 0, 0, 0⟩).1.SessionLifeTime
        = 48 * 60 * 60 * 1000000000
    ∧ (GetServerConfig none ⟨host, port, baseURL, 0, 0, 0, 0⟩).1.TokenLifeTime
        = 24 * 60 * 60 * 1000000000
    ∧ (GetServerConfig none ⟨host, port, baseURL, 0, 0, 0, 0⟩).1.GrantReqLifeTime
        = 15 * 60 * 1000000000
    ∧ (GetServerConfig none ⟨host, port, baseURL, 0, 0, 0, 0⟩).1.CleanerInterval
        = 15 * 60 * 1000000000 := by
  refine ⟨?_, ?_, ?_, ?_⟩ <;>
    simp [GetServerConfig, buildServerConfig, setDefaults, minutesToDuration, wrap64,
      timeMinute, defaultSessionLifeTime, defaultTokenLifeTime, defaultGrantReqLifeTime,
      defaultCleanerInterval, apply_ite]

/-- After the singleton is populated, every call returns it unchanged
and never reads the file. -/
theorem getServerConfigCalls_cached (c : ServerConfig) (fs : List HttpConfig) :
    GetServerConfigCalls (some c) fs = (fs.map (fun _ => (c, false)), some c) := by
  induction fs with
  | nil => rfl
  | cons f fs ih => simp [GetServerConfigCalls, GetServerConfig, ih]

/-- C9: `GetServerConfig` reads and parses the configuration file
exactly once over any sequence of calls; every subsequent call returns
the same `ServerConfig` value as the first, unchanged. -/
theorem getServerConfig_idempotent (f1 : HttpConfig) (fs : List HttpConfig) :
    GetServerConfigCalls none (f1 :: fs) =
      (((GetServerConfig none f1).1, true)
          :: fs.map (fun _ => ((GetServerConfig none f1).1, false)),
       some (GetServerConfig none f1).1) := by
  simp [GetServerConfigCalls, GetServerConfig, getServerConfigCalls_cached]

/-- C10: an empty configured `BaseURL` defaults to
`http://Host:Port`, or `http://Host` when the port is 80; a non-empty
`BaseURL` is returned unchanged. -/
theorem getServerConfig_baseURL (file : HttpConfig) :
    (GetServerConfig none file).1.BaseURL =
      if file.BaseURL = "" then
        if file.Port = 80 then "http://" ++ file.Host
        else "http://" ++ file.Host ++ ":" ++ toString file.Port
      else file.BaseURL := by
  rcases file with ⟨host, port, baseURL, s, t, g, ci⟩
  simp only [GetServerConfig, buildServerConfig, setDefaults]
  split_ifs <;> simp_all

/-- Deleting a token by its token string makes it unresolvable. -/
theorem lookupToken_deleteToken (store : List AccessToken) (bearer : String) :
    lookupToken (deleteToken store bearer) bearer = none := by
  rw [lookupToken, List.find?_eq_none]
  intro t ht
  rw [deleteToken, List.mem_filter] at ht
  simpa using ht.2

/-- C1: for every access token with `createdAt + lifetime ≤ now`
(including exactly at the boundary), `Validate` returns
`Unauthenticated` and deletes the token, and `GET /api/accounts/:login`
presented with that bearer token responds 401. -/
theorem validate_expired_token (store : List AccessToken) (bearer : String)
    (t : AccessToken) (now : Int) (accounts : List Account) (login : String)
    (hfind : lookupToken store bearer = some t)
    (hexp : t.createdAt + t.lifetime ≤ now) :
    (Validate store bearer now).1 = Except.error ErrKind.Unauthenticated
    ∧ (Validate store bearer now).2 = deleteToken store bearer
    ∧ lookupToken (Validate store bearer now).2 bearer = none
    ∧ (getAccount accounts store now (some bearer) login).1 = 401 := by
  have hv : Validate store bearer now =
      (Except.error ErrKind.Unauthenticated, deleteToken store bearer) := by
    simp [Validate, hfind, hexp]
  refine ⟨by rw [hv], by rw [hv], ?_, ?_⟩
  · rw [hv]
    exact lookupToken_deleteToken store bearer
  · simp [getAccount, hv, errStatus]

/-- Witness for C1: a token that expired exactly at `now` (the test
fixture token string of the expired token of `account_test.go`). -/
theorem validate_expired_token_witness :
    (Validate [⟨"LJ3W7ZFK", some "uuid-bob", "gin", ["account-read"], 0, 10⟩]
        "LJ3W7ZFK" 10).1 = Except.error ErrKind.Unauthenticated
    ∧ (getAccount [] [⟨"LJ3W7ZFK", some "uuid-bob", "gin", ["account-read"], 0, 10⟩]
        10 (some "LJ3W7ZFK") "bob").1 = 401 := by
  have h := validate_expired_token
    [⟨"LJ3W7ZFK", some "uuid-bob", "gin", ["account-read"], 0, 10⟩] "LJ3W7ZFK"
    ⟨"LJ3W7ZFK", some "uuid-bob", "gin", ["account-read"], 0, 10⟩ 10 [] "bob"
    (by decide) (by decide)
  exact ⟨h.1, h.2.2.2⟩

/-- C2: a valid token that lacks the required scope or targets another
principal's account draws `Forbidden`, and `Forbidden` maps to HTTP
401, never 403: both endpoints answer 401. -/
theorem forbidden_status_401 (store : List AccessToken) (bearer : String)
    (t : AccessToken) (now : Int) (accounts : List Account) (acc : Account)
    (login : String)
    (hfind : lookupToken store bearer = some t)
    (hfresh : now < t.createdAt + t.lifetime)
    (hacc : lookupAccount accounts login = some acc)
    (hnotself : tokenPrincipal t ≠ Principal.account acc.uuid)
    (hnoadmin : t.scope.contains "account-admin" = false) :
    errStatus ErrKind.Forbidden = 401
    ∧ (getAccount accounts store now (some bearer) login).1 = 401
    ∧ (listAccounts accounts store now (some bearer)).1 = 401 := by
  have hnle : ¬ t.createdAt + t.lifetime ≤ now := not_le.mpr hfresh
  have hv : Validate store bearer now = (Except.ok (tokenPrincipal t, t.scope), store) := by
    simp [Validate, hfind, hnle]
  have hmem : "account-admin" ∉ t.scope := by simpa using hnoadmin
  have hsoa : isSelfOrAdmin (tokenPrincipal t) t.scope acc = false := by
    simp only [isSelfOrAdmin]
    cases hp : tokenPrincipal t with
    | account uuid =>
      rw [hp] at hnotself
      simp
      exact ⟨fun h => hnotself (by rw [h]), hmem⟩
    | client id =>
      simpa using hmem
  refine ⟨rfl, ?_, ?_⟩
  · simp [getAccount, hv, hacc, hsoa, errStatus]
  · simp [listAccounts, hv, hmem, errStatus]

/-- Witness for C2: alice's valid read-scoped token used on bob's
account and on the admin-only listing. -/
theorem forbidden_status_401_witness :
    errStatus ErrKind.Forbidden = 401
    ∧ (getAccount [⟨"uuid-bob", "bob", "hashed:testtest"⟩]
        [⟨"3N7MP7M7", some "uuid-alice", "gin", ["account-read"], 0, 100⟩]
        50 (some "3N7MP7M7") "bob").1 = 401
    ∧ (listAccounts [⟨"uuid-bob", "bob", "hashed:testtest"⟩]
        [⟨"3N7MP7M7", some "uuid-alice", "gin", ["account-read"], 0, 100⟩]
        50 (some "3N7MP7M7")).1 = 401 :=
  forbidden_status_401
    [⟨"3N7MP7M7", some "uuid-alice", "gin", ["account-read"], 0, 100⟩] "3N7MP7M7"
    ⟨"3N7MP7M7", some "uuid-alice", "gin", ["account-read"], 0, 100⟩ 50
    [⟨"uuid-bob", "bob", "hashed:testtest"⟩] ⟨"uuid-bob", "bob", "hashed:testtest"⟩
    "bob" (by decide) (by decide) (by decide) (by decide) (by decide)

/-- C5: under a valid bearer token, `GET /api/accounts/:login` answers
404 when no account has that login, and 200 with the account's data
when the principal is the account itself or the token carries scope
`account-admin`. -/
theorem getAccount_access (accounts : List Account) (store : List AccessToken)
    (bearer : String) (t : AccessToken) (now : Int) (login : String)
    (hfind : lookupToken store bearer = some t)
    (hfresh : now < t.createdAt + t.lifetime) :
    (lookupAccount accounts login = none →
      (getAccount accounts store now (some bearer) login).1 = 404)
    ∧ (∀ acc, lookupAccount accounts login = some acc →
        (tokenPrincipal t = Principal.account acc.uuid
          ∨ t.scope.contains "account-admin" = true) →
        getAccount accounts store now (some bearer) login = (200, some acc, store)) := by
  have hnle : ¬ t.createdAt + t.lifetime ≤ now := not_le.mpr hfresh
  have hv : Validate store bearer now = (Except.ok (tokenPrincipal t, t.scope), store) := by
    simp [Validate, hfind, hnle]
  constructor
  · intro hnone
    simp [getAccount, hv, hnone, errStatus]
  · intro acc hacc hperm
    have hsoa : isSelfOrAdmin (tokenPrincipal t) t.scope acc = true := by
      simp only [isSelfOrAdmin]
      rcases hperm with hself | hadmin
      · rw [hself]
        simp
      · simp
        exact Or.inr (by simpa using hadmin)
    simp [getAccount, hv, hacc, hsoa]

/-- Witness for C5: an admin-scoped token reading another account
(200) and a missing login (404). -/
theorem getAccount_access_witness :
    getAccount [⟨"uuid-alice", "alice", "hashed:testtest"⟩, ⟨"uuid-bob", "bob", "hashed:testtest"⟩]
        [⟨"KDEW57D4", some "uuid-alice", "gin", ["account-admin"], 0, 100⟩] 50
        (some "KDEW57D4") "bob"
      = (200, some ⟨"uuid-bob", "bob", "hashed:testtest"⟩,
         [⟨"KDEW57D4", some "uuid-alice", "gin", ["account-admin"], 0, 100⟩])
    ∧ (getAccount [⟨"uuid-alice", "alice", "hashed:testtest"⟩, ⟨"uuid-bob", "bob", "hashed:testtest"⟩]
        [⟨"KDEW57D4", some "uuid-alice", "gin", ["account-admin"], 0, 100⟩] 50
        (some "KDEW57D4") "foo").1 = 404 := by
  constructor
  · exact (getAccount_access
      [⟨"uuid-alice", "alice", "hashed:testtest"⟩, ⟨"uuid-bob", "bob", "hashed:testtest"⟩]
      [⟨"KDEW57D4", some "uuid-alice", "gin", ["account-admin"], 0, 100⟩] "KDEW57D4"
      ⟨"KDEW57D4", some "uuid-alice", "gin", ["account-admin"], 0, 100⟩ 50 "bob"
      (by decide) (by decide)).2
      ⟨"uuid-bob", "bob", "hashed:testtest"⟩ (by decide) (Or.inr (by decide))
  · exact (getAccount_access
      [⟨"uuid-alice", "alice", "hashed:testtest"⟩, ⟨"uuid-bob", "bob", "hashed:testtest"⟩]
      [⟨"KDEW57D4", some "uuid-alice", "gin", ["account-admin"], 0, 100⟩] "KDEW57D4"
      ⟨"KDEW57D4", some "uuid-alice", "gin", ["account-admin"], 0, 100⟩ 50 "foo"
      (by decide) (by decide)).1 (by decide)

/-- Updating the stored hash of the account with the given login keeps
it resolvable and changes exactly its hash. -/
theorem lookupAccount_update (accounts : List Account) (login : String)
    (acc : Account) (newHash : String)
    (hacc : lookupAccount accounts login = some acc) :
    lookupAccount
        (accounts.map (fun a =>
          if a.login == login then { a with pwHash := newHash } else a)) login
      = some { acc with pwHash := newHash } := by
  have hacc2 : accounts.find? (fun a => a.login == login) = some acc := hacc
  have hlogin : (acc.login == login) = true := by
    simpa using List.find?_some hacc2
  rw [lookupAccount, List.find?_map]
  have hpf : ((fun a : Account => a.login == login) ∘
      (fun a => if a.login == login then { a with pwHash := newHash } else a))
      = (fun a : Account => a.login == login) := by
    funext a
    simp only [Function.comp]
    by_cases h : a.login = login <;> simp [h]
  rw [hpf]
  rw [show accounts.find? (fun a => a.login == login) = some acc from hacc]
  have hlogin2 : acc.login = login := by simpa using hlogin
  simp [hlogin2]

/-- C4: `PUT /api/accounts/:login/password`, authenticated as the
account itself, answers 200 exactly when the old password verifies, the
new password equals its repetition and has length at least 8; any
violation answers 400; on success the new password verifies against the
stored account afterwards. -/
theorem updateAccountPassword_spec (accounts : List Account) (store : List AccessToken)
    (bearer : String) (t : AccessToken) (now : Int) (acc : Account) (login : String)
    (passwordOld passwordNew passwordNewRepeat : String)
    (hfind : lookupToken store bearer = some t)
    (hfresh : now < t.createdAt + t.lifetime)
    (hacc : lookupAccount accounts login = some acc)
    (hself : tokenPrincipal t = Principal.account acc.uuid) :
    ((updateAccountPassword accounts store now (some bearer) login
        passwordOld passwordNew passwordNewRepeat).1 = 200
      ↔ (verifyPassword acc.pwHash passwordOld = true
          ∧ passwordNew = passwordNewRepeat ∧ 8 ≤ passwordNew.length))
    ∧ ((updateAccountPassword accounts store now (some bearer) login
        passwordOld passwordNew passwordNewRepeat).1 = 200
      ∨ (updateAccountPassword accounts store now (some bearer) login
        passwordOld passwordNew passwordNewRepeat).1 = 400)
    ∧ (verifyPassword acc.pwHash passwordOld = true → passwordNew = passwordNewRepeat →
        8 ≤ passwordNew.length →
        ∃ acc2,
          lookupAccount (updateAccountPassword accounts store now (some bearer) login
            passwordOld passwordNew passwordNewRepeat).2.1 login = some acc2
          ∧ verifyPassword acc2.pwHash passwordNew = true) := by
  have hnle : ¬ t.createdAt + t.lifetime ≤ now := not_le.mpr hfresh
  have hv : Validate store bearer now = (Except.ok (tokenPrincipal t, t.scope), store) := by
    simp [Validate, hfind, hnle]
  by_cases hcond : verifyPassword acc.pwHash passwordOld = true
      ∧ passwordNew = passwordNewRepeat ∧ 8 ≤ passwordNew.length
  · have hupd : updateAccountPassword accounts store now (some bearer) login
        passwordOld passwordNew passwordNewRepeat =
        (200,
         accounts.map (fun a =>
           if a.login == login then { a with pwHash := hashPassword passwordNew } else a),
         store) := by
      simp only [updateAccountPassword, hv, hacc]
      rw [if_pos hself, if_pos hcond]
    refine ⟨⟨fun _ => hcond, fun _ => by rw [hupd]⟩, Or.inl (by rw [hupd]), ?_⟩
    intro _ _ _
    refine ⟨{ acc with pwHash := hashPassword passwordNew }, ?_, ?_⟩
    · rw [hupd]
      exact lookupAccount_update accounts login acc (hashPassword passwordNew) hacc
    · simp [verifyPassword]
  · have hupd : updateAccountPassword accounts store now (some bearer) login
        passwordOld passwordNew passwordNewRepeat =
        (errStatus ErrKind.Malformed, accounts, store) := by
      simp only [updateAccountPassword, hv, hacc]
      rw [if_pos hself, if_neg hcond]
    refine ⟨?_, Or.inr (by rw [hupd]; rfl), ?_⟩
    · constructor
      · intro h
        rw [hupd] at h
        simp [errStatus] at h
      · intro h
        exact absurd h hcond
    · intro h1 h2 h3
      exact absurd ⟨h1, h2, h3⟩ hcond

/-- Witness for C4: alice changes her own password with a valid old
password and a matching 8-character repetition. -/
theorem updateAccountPassword_spec_witness :
    (updateAccountPassword [⟨"uuid-alice", "alice", "hashed:testtest"⟩]
        [⟨"3N7MP7M7", some "uuid-alice", "gin", ["account-read"], 0, 100⟩] 50
        (some "3N7MP7M7") "alice" "testtest" "TestTest" "TestTest").1 = 200
    ∧ ∃ acc2,
        lookupAccount (updateAccountPassword [⟨"uuid-alice", "alice", "hashed:testtest"⟩]
          [⟨"3N7MP7M7", some "uuid-alice", "gin", ["account-read"], 0, 100⟩] 50
          (some "3N7MP7M7") "alice" "testtest" "TestTest" "TestTest").2.1 "alice" = some acc2
        ∧ verifyPassword acc2.pwHash "TestTest" = true := by
  have h := updateAccountPassword_spec [⟨"uuid-alice", "alice", "hashed:testtest"⟩]
    [⟨"3N7MP7M7", some "uuid-alice", "gin", ["account-read"], 0, 100⟩] "3N7MP7M7"
    ⟨"3N7MP7M7", some "uuid-alice", "gin", ["account-read"], 0, 100⟩ 50
    ⟨"uuid-alice", "alice", "hashed:testtest"⟩ "alice" "testtest" "TestTest" "TestTest"
    (by decide) (by decide) (by decide) (by decide)
  exact ⟨h.1.mpr ⟨by decide, rfl, by decide⟩, h.2.2 (by decide) rfl (by decide)⟩

end GinAuth
